import Mathlib

/-
Shallow embedding of the `shell` package of the modd repository
(src/shell/shell.go): a registry of named executor strategies, the
uniform Run contract, and the output-pump / command-runner pair.

External collaborators of the code (the shlex tokenizer, the search-path
lookup, the self-path resolution, the process-execution primitives, the
stderr and stdout byte streams that the started process produces, and the
process exit outcome) are modelled as an explicit `Platform` / `RunEnv`
value supplied to each call: the functions below compute, for each such
environment, the exact value the Go code returns and the exact sequence
of side effects (sink calls, process start, pump launches) it performs.
Byte streams are `List Nat` (byte values); Go error values are `Option
String` with `none` for nil.
-/

set_option autoImplicit false
set_option maxRecDepth 100000

namespace ModdShell

/-- A Go error value: `none` is Go's nil error, `some msg` a non-nil error. -/
abbrev GoErr := String

/-- A byte of a process output stream. -/
abbrev Byte := Nat

/-- A process specification, as built by `exec.Command(name, args...)`:
the executable (or executable name) and its argument list. -/
structure Cmd where
  name : String
  args : List String
  deriving DecidableEq

/-- How the started process terminated: normal exit with a status code,
or killed by a signal. -/
inductive ExitOutcome where
  | exited (code : Nat)
  | signaled (sig : Nat)
  deriving DecidableEq

/-- The error value `(*exec.Cmd).Wait` reports for an exit outcome:
nil on a zero exit status, a non-nil `ExitError` on a non-zero status or
on death by signal. -/
def goWait : ExitOutcome → Option GoErr
  | ExitOutcome.exited 0 => none
  | ExitOutcome.exited (c + 1) => some ("exit status " ++ toString (c + 1))
  | ExitOutcome.signaled s => some ("signal: " ++ toString s)

/-- The platform-dependent behaviour of one `execRunner` call on the
constructed command: the results of the pipe acquisitions and of
`Start`, the byte streams the process writes to stdout and stderr, and
its exit outcome. -/
structure RunEnv where
  stdoutPipeErr : Option GoErr
  stderrPipeErr : Option GoErr
  startErr : Option GoErr
  stdoutBytes : List Byte
  stderrBytes : List Byte
  exitOutcome : ExitOutcome

/-- The external collaborators a strategy consults before delegating to
the runner: `shlex.Split`, `exec.LookPath` and `os.Executable`. -/
structure Platform where
  shlexSplit : String → Except GoErr (List String)
  lookPath : String → Except GoErr String
  osExecutable : Except GoErr String

/-- The observable outcome of one Run call: the Go return triple
(invocation error, process error, captured stderr text) together with the
reified side effects — the command handed to the runner (`none` when the
strategy failed before delegating), whether `Start` was called, whether
the process started, whether the two pumps were launched, and the lines
delivered to the sink via `Say` (stdout pump) and `Warn` (stderr pump). -/
structure RunResult where
  invocationError : Option GoErr
  processError : Option GoErr
  capturedErrorText : List Byte
  cmd : Option Cmd
  startAttempted : Bool
  started : Bool
  pumpsLaunched : Bool
  sayEvents : List (List Byte)
  warnEvents : List (List Byte)
  deriving DecidableEq

/- ----------------------------------------------------------------
   The output pump: logOutput reads with bufio.Reader.ReadLine on a
   reader with the default 4096-byte buffer, and discards the isPrefix
   flag.
   ---------------------------------------------------------------- -/

/-- Index of the first newline byte in a list, if any
(the search `ReadSlice` performs for the delimiter). -/
def findNl : List Byte → Option Nat
  | [] => none
  | b :: t => if b = 10 then some 0 else (findNl t).map (fun i => i + 1)

/-- Drop a trailing carriage-return byte, as `ReadLine` does on a
newline-terminated line. -/
def stripCR (l : List Byte) : List Byte :=
  if l.getLast? = some 13 then l.dropLast else l

/-- One `bufio.Reader.ReadLine` call on a reader with buffer capacity
`cap` whose remaining input is `s`: `none` at end of stream, otherwise
the returned line content and the remaining input. Covers the three
paths of `ReadLine`: delimiter found within the buffer (terminators
stripped), end of stream inside the buffer (unterminated data returned
as-is), and buffer full without a delimiter (a truncated chunk is
returned with `isPrefix = true` — which `logOutput` discards — with the
straddling carriage return pushed back). -/
def readLineGo (cap : Nat) (s : List Byte) : Option (List Byte × List Byte) :=
  if s = [] then none
  else
    match findNl (s.take cap) with
    | some i => some (stripCR (s.take i), s.drop (i + 1))
    | none =>
      if s.length ≤ cap then
        some (s, [])
      else if (s.take cap).getLast? = some 13 then
        some ((s.take cap).dropLast, s.drop (cap - 1))
      else
        some (s.take cap, s.drop cap)

/-- The read loop of `logOutput`, fuelled: emits the line of each
successful `ReadLine` call and stops at end of stream (or on a read
error, which truncates the modelled stream). -/
def pumpGo (cap : Nat) : Nat → List Byte → List (List Byte)
  | 0, _ => []
  | fuel + 1, s =>
    match readLineGo cap s with
    | none => []
    | some (line, rest) => line :: pumpGo cap fuel rest

/-- The default buffer size of `bufio.NewReader`. -/
def bufSize : Nat := 4096

/-- The lines `logOutput` emits for input stream `s`: each `ReadLine`
step consumes at least one byte, so `s.length + 1` fuel is never
exhausted before end of stream. -/
def logOutputLines (s : List Byte) : List (List Byte) :=
  pumpGo bufSize (s.length + 1) s

/-- Modelled from the spec: the ideal line splitter of §4.1, "buffered
reader that blocks on demand, not a fixed-size line buffer" — one
`ReadLine` step with an unbounded buffer, for comparison with
`readLineGo`. -/
def readLineUnbounded (s : List Byte) : Option (List Byte × List Byte) :=
  if s = [] then none
  else
    match findNl s with
    | some i => some (stripCR (s.take i), s.drop (i + 1))
    | none => some (s, [])

/-- Modelled from the spec: the fuelled loop over `readLineUnbounded`. -/
def splitGo : Nat → List Byte → List (List Byte)
  | 0, _ => []
  | fuel + 1, s =>
    match readLineUnbounded s with
    | none => []
    | some (line, rest) => line :: splitGo fuel rest

/-- Modelled from the spec: the complete lines of a byte stream, each
stripped of its terminator, with a final unterminated segment kept
as-is — what the spec says the pump forwards, one emit per line, with no
length bound. -/
def splitLinesSpec (s : List Byte) : List (List Byte) :=
  splitGo (s.length + 1) s

/- ----------------------------------------------------------------
   The command runner.
   ---------------------------------------------------------------- -/

/-- The result of a strategy-level early return `return err, nil, ""`:
no command was handed to the runner, nothing was started, no pump ran. -/
def invocationFailure (e : GoErr) : RunResult :=
  { invocationError := some e
    processError := none
    capturedErrorText := []
    cmd := none
    startAttempted := false
    started := false
    pumpsLaunched := false
    sayEvents := []
    warnEvents := [] }

/-- execRunner: acquire the stdout pipe, acquire the stderr pipe, start
the process (each failure returns `(err, nil, "")` immediately), then
launch the two pumps — the stderr pump forwards each line to `Warn` and,
when `bufferr` is set, appends the line plus a newline to the shared
buffer — join them, wait for the process and return
`(nil, waitError, bufferContents)`. -/
def execRunner (c : Cmd) (env : RunEnv) (bufferr : Bool) : RunResult :=
  match env.stdoutPipeErr with
  | some e =>
    { invocationError := some e
      processError := none
      capturedErrorText := []
      cmd := some c
      startAttempted := false
      started := false
      pumpsLaunched := false
      sayEvents := []
      warnEvents := [] }
  | none =>
    match env.stderrPipeErr with
    | some e =>
      { invocationError := some e
        processError := none
        capturedErrorText := []
        cmd := some c
        startAttempted := false
        started := false
        pumpsLaunched := false
        sayEvents := []
        warnEvents := [] }
    | none =>
      match env.startErr with
      | some e =>
        { invocationError := some e
          processError := none
          capturedErrorText := []
          cmd := some c
          startAttempted := true
          started := false
          pumpsLaunched := false
          sayEvents := []
          warnEvents := [] }
      | none =>
        let errLines := logOutputLines env.stderrBytes
        { invocationError := none
          processError := goWait env.exitOutcome
          capturedErrorText :=
            errLines.foldl (fun acc l => if bufferr then acc ++ (l ++ [10]) else acc) []
          cmd := some c
          startAttempted := true
          started := true
          pumpsLaunched := true
          sayEvents := logOutputLines env.stdoutBytes
          warnEvents := errLines }

/- ----------------------------------------------------------------
   The three executor strategies.
   ---------------------------------------------------------------- -/

namespace Exec

/-- Exec.Name. -/
def name : String := "exec"

/-- Exec.Run: tokenize the line with `shlex.Split`; on a tokenizer error
or an empty token vector return an invocation error, otherwise run
`exec.Command(ss[0], ss[1:]...)`. -/
def Run (p : Platform) (line : String) (env : RunEnv) (bufferr : Bool) : RunResult :=
  match p.shlexSplit line with
  | Except.error err => invocationFailure err
  | Except.ok ss =>
    match ss with
    | [] => invocationFailure "No command defined"
    | s0 :: rest => execRunner { name := s0, args := rest } env bufferr

/-- Exec.Stop: always returns nil. -/
def Stop : Option GoErr := none

end Exec

namespace Bash

/-- Bash.Name. -/
def name : String := "bash"

/-- Bash.getShell: `bash` if `exec.LookPath` finds it, else `sh` if
found, else an error. -/
def getShell (p : Platform) : Except GoErr String :=
  match p.lookPath "bash" with
  | Except.ok _ => Except.ok "bash"
  | Except.error _ =>
    match p.lookPath "sh" with
    | Except.ok _ => Except.ok "sh"
    | Except.error _ => Except.error "Could not find bash or sh on path."

/-- Bash.Run: resolve the interpreter, return its error as an invocation
error, otherwise run `exec.Command(sh, "-c", line)`. -/
def Run (p : Platform) (line : String) (env : RunEnv) (bufferr : Bool) : RunResult :=
  match getShell p with
  | Except.error err => invocationFailure err
  | Except.ok sh => execRunner { name := sh, args := ["-c", line] } env bufferr

/-- Bash.Stop: always returns nil. -/
def Stop : Option GoErr := none

end Bash

namespace Builtin

/-- Builtin.Name. -/
def name : String := "builtin"

/-- Builtin.Run: resolve `os.Executable`, return its error as an
invocation error, otherwise run `exec.Command(path, "--exec", line)`. -/
def Run (p : Platform) (line : String) (env : RunEnv) (bufferr : Bool) : RunResult :=
  match p.osExecutable with
  | Except.error err => invocationFailure err
  | Except.ok path => execRunner { name := path, args := ["--exec", line] } env bufferr

/-- Builtin.Stop: always returns nil. -/
def Stop : Option GoErr := none

end Builtin

/- ----------------------------------------------------------------
   The registry.
   ---------------------------------------------------------------- -/

/-- The three executors the init function registers. -/
inductive ExecutorKind where
  | exec
  | bash
  | builtin
  deriving DecidableEq

/-- The Name() method of each executor. -/
def ExecutorKind.name : ExecutorKind → String
  | ExecutorKind.exec => Exec.name
  | ExecutorKind.bash => Bash.name
  | ExecutorKind.builtin => Builtin.name

/-- The `shells` map, keyed by strategy name. -/
abbrev Registry := List (String × ExecutorKind)

/-- Lookup in the `shells` map. -/
def lookupName : Registry → String → Option ExecutorKind
  | [], _ => none
  | (k, v) :: rest, n => if k = n then some v else lookupName rest n

/-- register: panics (modelled as `Except.error` carrying the panic
message) when the name is already present, otherwise inserts. -/
def register (shells : Registry) (i : ExecutorKind) : Except String Registry :=
  if (lookupName shells i.name).isSome then
    Except.error ("shell interface " ++ i.name ++ " already exists")
  else
    Except.ok (shells ++ [(i.name, i)])

/-- The package init function: registers Exec, Bash and Builtin in that
order into the empty map. -/
def initShells : Except String Registry := do
  let s1 ← register [] ExecutorKind.exec
  let s2 ← register s1 ExecutorKind.bash
  register s2 ExecutorKind.builtin

/-- The registry the init function produces. -/
def initRegistry : Registry :=
  [("exec", ExecutorKind.exec), ("bash", ExecutorKind.bash), ("builtin", ExecutorKind.builtin)]

/-- GetExecutor: map lookup, nil when absent. -/
def GetExecutor (shells : Registry) (method : String) : Option ExecutorKind :=
  lookupName shells method

/-- The runner result of a pipe-acquisition failure on command `c`:
the error is returned as the invocation error, the process is never
started and no pump is launched. -/
def pipeFailureResult (c : Cmd) (e : GoErr) : RunResult :=
  { invocationError := some e
    processError := none
    capturedErrorText := []
    cmd := some c
    startAttempted := false
    started := false
    pumpsLaunched := false
    sayEvents := []
    warnEvents := [] }

/-- The runner result of a Start failure on command `c`: the error is
returned as the invocation error, the start was attempted but the
process did not start, and no pump is launched. -/
def startFailureResult (c : Cmd) (e : GoErr) : RunResult :=
  { invocationError := some e
    processError := none
    capturedErrorText := []
    cmd := some c
    startAttempted := true
    started := false
    pumpsLaunched := false
    sayEvents := []
    warnEvents := [] }

/-- A stream holding one 4097-byte line and its newline terminator. -/
def longLineStream : List Byte := List.replicate 4097 97 ++ [10]

/- ----------------------------------------------------------------
   Concrete fixtures used by witnesses.
   ---------------------------------------------------------------- -/

/-- A run environment in which pipes, start and exit all succeed. -/
def envOk : RunEnv :=
  { stdoutPipeErr := none
    stderrPipeErr := none
    startErr := none
    stdoutBytes := [104, 105, 10]
    stderrBytes := [101, 114, 10]
    exitOutcome := ExitOutcome.exited 0 }

/-- envOk with a failing stdout-pipe acquisition. -/
def envStdoutPipeFail : RunEnv := { envOk with stdoutPipeErr := some "stdout pipe failed" }

/-- envOk with a failing stderr-pipe acquisition. -/
def envStderrPipeFail : RunEnv := { envOk with stderrPipeErr := some "stderr pipe failed" }

/-- envOk with a failing Start. -/
def envStartFail : RunEnv := { envOk with startErr := some "fork failed" }

/-- envOk with a non-zero exit status. -/
def envExitOne : RunEnv := { envOk with exitOutcome := ExitOutcome.exited 1 }

/-- A platform on which every collaborator succeeds. -/
def platOk : Platform :=
  { shlexSplit := fun _ => Except.ok ["ls", "-l"]
    lookPath := fun n => Except.ok ("/usr/bin/" ++ n)
    osExecutable := Except.ok "/usr/bin/modd" }

/-- A platform on which every collaborator fails. -/
def platFail : Platform :=
  { shlexSplit := fun _ => Except.error "EOF found when expecting closing quote"
    lookPath := fun _ => Except.error "executable file not found on PATH"
    osExecutable := Except.error "cannot determine executable path" }

/-- A platform whose tokenizer returns an empty token vector. -/
def platTokEmpty : Platform := { platOk with shlexSplit := fun _ => Except.ok [] }

/-- A platform on which only `sh` is on the search path. -/
def platOnlySh : Platform :=
  { platOk with
      lookPath := fun n =>
        if n = "sh" then Except.ok "/bin/sh"
        else Except.error "executable file not found on PATH" }

/- ----------------------------------------------------------------
   Helper lemmas about the pump.
   ---------------------------------------------------------------- -/

theorem findNl_replicate_ne (n b : Nat) (hb : b ≠ 10) :
    findNl (List.replicate n b) = none := by
  induction n with
  | zero => rfl
  | succ m ih => rw [List.replicate_succ]; simp [findNl, hb, ih]

theorem getLast?_replicate_succ (n : Nat) (a : Byte) :
    (List.replicate (n + 1) a).getLast? = some a := by
  induction n with
  | zero => rfl
  | succ m ih =>
    rw [List.replicate_succ, List.replicate_succ, List.getLast?_cons_cons,
      ← List.replicate_succ]
    exact ih

theorem findNl_take_some (s : List Byte) :
    ∀ cap i, findNl (s.take cap) = some i → findNl s = some i := by
  induction s with
  | nil => intro cap i h; simp [findNl] at h
  | cons b t ih =>
    intro cap i h
    cases cap with
    | zero => simp [findNl] at h
    | succ c =>
      rw [List.take_succ_cons] at h
      by_cases hb : b = 10
      · simp only [findNl, if_pos hb] at h ⊢
        exact h
      · simp only [findNl, if_neg hb] at h ⊢
        cases hft : findNl (t.take c) with
        | none => rw [hft] at h; simp at h
        | some j =>
          rw [hft] at h
          simp only [Option.map_some'] at h
          rw [ih c j hft]
          simpa using h

theorem findNl_ne_none_of_mem (l : List Byte) (h : (10 : Nat) ∈ l) :
    findNl l ≠ none := by
  induction l with
  | nil => simp at h
  | cons b t ih =>
    by_cases hb : b = 10
    · simp [findNl, hb]
    · have ht : (10 : Nat) ∈ t := by
        rcases List.mem_cons.mp h with h1 | h2
        · exact absurd h1.symm hb
        · exact h2
      simp only [findNl, if_neg hb]
      cases hft : findNl t with
      | none => exact absurd hft (ih ht)
      | some j => simp

theorem pumpGo_nil (cap fuel : Nat) : pumpGo cap fuel [] = [] := by
  cases fuel with
  | zero => rfl
  | succ n => simp [pumpGo, readLineGo]

theorem splitGo_nil (fuel : Nat) : splitGo fuel [] = [] := by
  cases fuel with
  | zero => rfl
  | succ n => simp [splitGo, readLineUnbounded]

theorem readLineGo_eq_unbounded (cap : Nat) (s : List Byte) (hs : s ≠ [])
    (H0 : cap ≤ s.length → (10 : Nat) ∈ s.take cap) :
    readLineGo cap s = readLineUnbounded s := by
  unfold readLineGo readLineUnbounded
  rw [if_neg hs, if_neg hs]
  cases hfind : findNl (s.take cap) with
  | some i => rw [findNl_take_some s cap i hfind]
  | none =>
    by_cases hle : s.length ≤ cap
    · rw [List.take_of_length_le hle] at hfind
      rw [hfind, if_pos hle]
    · exact absurd hfind (findNl_ne_none_of_mem _ (H0 (le_of_not_le hle)))

theorem readLineUnbounded_rest (s line rest : List Byte)
    (h : readLineUnbounded s = some (line, rest)) :
    rest = [] ∨ ∃ k, 0 < k ∧ rest = s.drop k := by
  unfold readLineUnbounded at h
  by_cases hs : s = []
  · rw [if_pos hs] at h; simp at h
  · rw [if_neg hs] at h
    cases hf : findNl s with
    | some i =>
      rw [hf] at h
      simp only [Option.some.injEq, Prod.mk.injEq] at h
      exact Or.inr ⟨i + 1, Nat.succ_pos i, h.2.symm⟩
    | none =>
      rw [hf] at h
      simp only [Option.some.injEq, Prod.mk.injEq] at h
      exact Or.inl h.2.symm

theorem pumpGo_eq_splitGo (cap : Nat) :
    ∀ fuel (s : List Byte), s.length < fuel →
      (∀ i, cap ≤ (s.drop i).length → (10 : Nat) ∈ (s.drop i).take cap) →
      pumpGo cap fuel s = splitGo fuel s := by
  intro fuel
  induction fuel with
  | zero => intro s h _; exact absurd h (Nat.not_lt_zero _)
  | succ n ih =>
    intro s hlen H
    by_cases hs : s = []
    · subst hs; rw [pumpGo_nil, splitGo_nil]
    · have hr := readLineGo_eq_unbounded cap s hs (by
        intro hc
        have := H 0
        simpa using this hc)
      simp only [pumpGo, splitGo, hr]
      cases hu : readLineUnbounded s with
      | none => rfl
      | some pr =>
        obtain ⟨line, rest⟩ := pr
        have hcases := readLineUnbounded_rest s line rest hu
        rcases hcases with hnil | ⟨k, hk, hdrop⟩
        · subst hnil
          dsimp only
          rw [pumpGo_nil, splitGo_nil]
        · subst hdrop
          have hslen : 0 < s.length := List.length_pos.mpr hs
          have hrest : (s.drop k).length < n := by
            rw [List.length_drop]
            omega
          dsimp only
          rw [ih (s.drop k) hrest (by
            intro i hi
            rw [List.drop_drop] at hi ⊢
            exact H (k + i) hi)]

/- ----------------------------------------------------------------
   Helper lemmas about the runner.
   ---------------------------------------------------------------- -/

theorem execRunner_exclusive (c : Cmd) (env : RunEnv) (b : Bool) :
    (execRunner c env b).invocationError.isSome →
      (execRunner c env b).processError = none ∧
      (execRunner c env b).capturedErrorText = [] := by
  obtain ⟨spe, sep, ste, so, se, eo⟩ := env
  cases spe <;> cases sep <;> cases ste <;> simp [execRunner]

theorem execRunner_cmd (c : Cmd) (env : RunEnv) (b : Bool) :
    (execRunner c env b).cmd = some c := by
  obtain ⟨spe, sep, ste, so, se, eo⟩ := env
  cases spe <;> cases sep <;> cases ste <;> simp [execRunner]

theorem captureFold_eq_nil (lines : List (List Byte)) (acc : List Byte) :
    lines.foldl (fun acc _ => acc) acc = acc := by
  induction lines generalizing acc with
  | nil => rfl
  | cons hd tl ih => rw [List.foldl_cons]; exact ih acc

theorem captureFold_eq_flatten (lines : List (List Byte)) (acc : List Byte) :
    lines.foldl (fun acc l => acc ++ (l ++ [10])) acc
      = acc ++ (lines.map (fun l => l ++ [10])).flatten := by
  induction lines generalizing acc with
  | nil => simp
  | cons hd tl ih => rw [List.foldl_cons, ih]; simp [List.append_assoc]

theorem pumpGo_succ (cap fuel : Nat) (s line rest : List Byte)
    (h : readLineGo cap s = some (line, rest)) :
    pumpGo cap (fuel + 1) s = line :: pumpGo cap fuel rest := by
  simp only [pumpGo, h]

/- ----------------------------------------------------------------
   The claims.
   ---------------------------------------------------------------- -/

/-- C1: for every strategy and every Run call, at most one error tier is
populated — whenever the returned invocation error is non-nil, the
returned process error is nil and the captured error text is empty, on
every early-return path (tokenization failure, empty command, missing
interpreter, self-path resolution failure, pipe setup failure and
process-start failure) as well as on the runner's own paths. -/
theorem run_error_tiers_exclusive (c : Cmd) (p : Platform) (line : String)
    (env : RunEnv) (b : Bool) :
    ((execRunner c env b).invocationError.isSome →
       (execRunner c env b).processError = none ∧
       (execRunner c env b).capturedErrorText = []) ∧
    ((Exec.Run p line env b).invocationError.isSome →
       (Exec.Run p line env b).processError = none ∧
       (Exec.Run p line env b).capturedErrorText = []) ∧
    ((Bash.Run p line env b).invocationError.isSome →
       (Bash.Run p line env b).processError = none ∧
       (Bash.Run p line env b).capturedErrorText = []) ∧
    ((Builtin.Run p line env b).invocationError.isSome →
       (Builtin.Run p line env b).processError = none ∧
       (Builtin.Run p line env b).capturedErrorText = []) := by
  refine ⟨execRunner_exclusive c env b, ?_, ?_, ?_⟩
  · unfold Exec.Run
    cases hp : p.shlexSplit line with
    | error e => simp [invocationFailure]
    | ok ss =>
      cases ss with
      | nil => simp [invocationFailure]
      | cons s0 rest => exact execRunner_exclusive _ env b
  · unfold Bash.Run
    cases hsh : Bash.getShell p with
    | error e => simp [invocationFailure]
    | ok sh => exact execRunner_exclusive _ env b
  · unfold Builtin.Run
    cases ho : p.osExecutable with
    | error e => simp [invocationFailure]
    | ok path => exact execRunner_exclusive _ env b

/-- Witness for C1: the hypotheses hold at a pipe-failure environment
and at a platform whose collaborators fail. -/
theorem run_error_tiers_exclusive_witness :
    ((execRunner { name := "ls", args := [] } envStdoutPipeFail false).processError = none ∧
     (execRunner { name := "ls", args := [] } envStdoutPipeFail false).capturedErrorText = []) ∧
    ((Exec.Run platFail "ls" envStdoutPipeFail false).processError = none ∧
     (Exec.Run platFail "ls" envStdoutPipeFail false).capturedErrorText = []) ∧
    ((Bash.Run platFail "ls" envStdoutPipeFail false).processError = none ∧
     (Bash.Run platFail "ls" envStdoutPipeFail false).capturedErrorText = []) ∧
    ((Builtin.Run platFail "ls" envStdoutPipeFail false).processError = none ∧
     (Builtin.Run platFail "ls" envStdoutPipeFail false).capturedErrorText = []) := by
  obtain ⟨h1, h2, h3, h4⟩ :=
    run_error_tiers_exclusive { name := "ls", args := [] } platFail "ls" envStdoutPipeFail false
  exact ⟨h1 rfl, h2 rfl, h3 rfl, h4 rfl⟩

/-- C2: once the process starts, the captured error text is empty when
`bufferr` is false regardless of the stderr stream, is the pump's stderr
lines each followed by one newline byte when `bufferr` is true, and in
both cases every stderr line is forwarded to the sink via Warn. -/
theorem captured_stderr_contract (c : Cmd) (env : RunEnv) (b : Bool)
    (h1 : env.stdoutPipeErr = none) (h2 : env.stderrPipeErr = none)
    (h3 : env.startErr = none) :
    (execRunner c env b).warnEvents = logOutputLines env.stderrBytes ∧
    (b = false → (execRunner c env b).capturedErrorText = []) ∧
    (b = true → (execRunner c env b).capturedErrorText =
      ((logOutputLines env.stderrBytes).map (fun l => l ++ [10])).flatten) := by
  refine ⟨?_, ?_, ?_⟩
  · simp [execRunner, h1, h2, h3]
  · intro hb
    subst hb
    simp [execRunner, h1, h2, h3, captureFold_eq_nil]
  · intro hb
    subst hb
    simp [execRunner, h1, h2, h3, captureFold_eq_flatten]

/-- Witness for C2 at a concrete environment whose stderr stream is one
line of bytes 101 114. -/
theorem captured_stderr_contract_witness :
    (execRunner { name := "sh", args := [] } envOk true).warnEvents = [[101, 114]] ∧
    (execRunner { name := "sh", args := [] } envOk true).capturedErrorText = [101, 114, 10] := by
  obtain ⟨hw, _, hc⟩ := captured_stderr_contract { name := "sh", args := [] } envOk true rfl rfl rfl
  constructor
  · rw [hw]; rfl
  · rw [hc rfl]; rfl

/-- C4: once the process starts, the invocation error is nil and the
process error is exactly the Wait error of the exit outcome — nil on a
zero exit status, non-nil on a non-zero status or a killing signal. -/
theorem process_error_is_exit_status (c : Cmd) (env : RunEnv) (b : Bool)
    (h1 : env.stdoutPipeErr = none) (h2 : env.stderrPipeErr = none)
    (h3 : env.startErr = none) :
    (execRunner c env b).invocationError = none ∧
    (execRunner c env b).processError = goWait env.exitOutcome ∧
    (goWait env.exitOutcome = none ↔ env.exitOutcome = ExitOutcome.exited 0) := by
  refine ⟨?_, ?_, ?_⟩
  · simp [execRunner, h1, h2, h3]
  · simp [execRunner, h1, h2, h3]
  · cases heo : env.exitOutcome with
    | exited code =>
      cases code with
      | zero => simp [goWait]
      | succ m => simp [goWait]
    | signaled sig => simp [goWait]

/-- Witness for C4 at an environment whose process exits with status 1. -/
theorem process_error_is_exit_status_witness :
    (execRunner { name := "sh", args := [] } envExitOne false).invocationError = none ∧
    (execRunner { name := "sh", args := [] } envExitOne false).processError =
      goWait envExitOne.exitOutcome ∧
    goWait envExitOne.exitOutcome = some ("exit status " ++ toString 1) := by
  obtain ⟨ha, hb, _⟩ :=
    process_error_is_exit_status { name := "sh", args := [] } envExitOne false rfl rfl rfl
  exact ⟨ha, hb, rfl⟩

/-- C5: a stdout-pipe failure, a stderr-pipe failure or a Start failure
makes the runner return immediately with that error as the invocation
error; no pump is launched, and on the pipe failures the process is
never started. -/
theorem runner_pipe_and_start_failures (c : Cmd) (env : RunEnv) (b : Bool) :
    (∀ e, env.stdoutPipeErr = some e → execRunner c env b = pipeFailureResult c e) ∧
    (∀ e, env.stdoutPipeErr = none → env.stderrPipeErr = some e →
       execRunner c env b = pipeFailureResult c e) ∧
    (∀ e, env.stdoutPipeErr = none → env.stderrPipeErr = none → env.startErr = some e →
       execRunner c env b = startFailureResult c e) ∧
    (∀ e, (pipeFailureResult c e).invocationError = some e ∧
       (pipeFailureResult c e).pumpsLaunched = false ∧
       (pipeFailureResult c e).startAttempted = false ∧
       (startFailureResult c e).invocationError = some e ∧
       (startFailureResult c e).pumpsLaunched = false ∧
       (startFailureResult c e).started = false) := by
  refine ⟨?_, ?_, ?_, ?_⟩
  · intro e h1
    simp [execRunner, h1, pipeFailureResult]
  · intro e h1 h2
    simp [execRunner, h1, h2, pipeFailureResult]
  · intro e h1 h2 h3
    simp [execRunner, h1, h2, h3, startFailureResult]
  · intro e
    exact ⟨rfl, rfl, rfl, rfl, rfl, rfl⟩

/-- Witness for C5 at the three concrete failure environments. -/
theorem runner_pipe_and_start_failures_witness :
    execRunner { name := "sh", args := [] } envStdoutPipeFail false =
      pipeFailureResult { name := "sh", args := [] } "stdout pipe failed" ∧
    execRunner { name := "sh", args := [] } envStderrPipeFail false =
      pipeFailureResult { name := "sh", args := [] } "stderr pipe failed" ∧
    execRunner { name := "sh", args := [] } envStartFail false =
      startFailureResult { name := "sh", args := [] } "fork failed" := by
  refine ⟨?_, ?_, ?_⟩
  · exact (runner_pipe_and_start_failures { name := "sh", args := [] } envStdoutPipeFail false).1
      _ rfl
  · exact (runner_pipe_and_start_failures { name := "sh", args := [] } envStderrPipeFail false).2.1
      _ rfl rfl
  · exact (runner_pipe_and_start_failures { name := "sh", args := [] } envStartFail false).2.2.1
      _ rfl rfl rfl


/-- C6: the Direct strategy returns the tokenizer's error as an
invocation error when shell-word tokenization fails, returns the
"No command defined" invocation error when the token vector is empty,
and otherwise hands the runner a process built from the first token as
the executable and the remaining tokens as its arguments, with no
interpreter in between. -/
theorem exec_strategy_contract (p : Platform) (line : String) (env : RunEnv) (b : Bool) :
    (∀ e, p.shlexSplit line = Except.error e → Exec.Run p line env b = invocationFailure e) ∧
    (p.shlexSplit line = Except.ok [] →
       Exec.Run p line env b = invocationFailure "No command defined") ∧
    (∀ s0 rest, p.shlexSplit line = Except.ok (s0 :: rest) →
       Exec.Run p line env b = execRunner { name := s0, args := rest } env b ∧
       (Exec.Run p line env b).cmd = some { name := s0, args := rest }) ∧
    (∀ e, (invocationFailure e).invocationError = some e ∧
       (invocationFailure e).cmd = none) := by
  refine ⟨?_, ?_, ?_, fun e => ⟨rfl, rfl⟩⟩
  · intro e h
    unfold Exec.Run
    rw [h]
  · intro h
    unfold Exec.Run
    rw [h]
  · intro s0 rest h
    have hrun : Exec.Run p line env b = execRunner { name := s0, args := rest } env b := by
      unfold Exec.Run
      rw [h]
    exact ⟨hrun, by rw [hrun]; exact execRunner_cmd _ env b⟩

/-- Witness for C6 at a failing tokenizer, an empty token vector and the
token vector with head "ls" and tail ["-l"]. -/
theorem exec_strategy_contract_witness :
    Exec.Run platFail "ls" envOk false =
      invocationFailure "EOF found when expecting closing quote" ∧
    Exec.Run platTokEmpty "" envOk false = invocationFailure "No command defined" ∧
    Exec.Run platOk "ls -l" envOk false =
      execRunner { name := "ls", args := ["-l"] } envOk false := by
  refine ⟨?_, ?_, ?_⟩
  · exact (exec_strategy_contract platFail "ls" envOk false).1 _ rfl
  · exact (exec_strategy_contract platTokEmpty "" envOk false).2.1 rfl
  · exact ((exec_strategy_contract platOk "ls -l" envOk false).2.2.1 "ls" ["-l"] rfl).1

/-- C7: the Shell strategy resolves its interpreter by consulting the
search path for bash first and then sh; its resolution step fails with
an invocation error exactly when neither lookup succeeds, and otherwise
it hands the runner the resolved interpreter invoked with the -c flag
and the raw, unparsed line as one single argument. -/
theorem bash_strategy_contract (p : Platform) (line : String) (env : RunEnv) (b : Bool) :
    ((∃ pth, p.lookPath "bash" = Except.ok pth) → Bash.getShell p = Except.ok "bash") ∧
    ((∃ e, p.lookPath "bash" = Except.error e) → (∃ pth, p.lookPath "sh" = Except.ok pth) →
       Bash.getShell p = Except.ok "sh") ∧
    ((∃ e, p.lookPath "bash" = Except.error e) → (∃ e, p.lookPath "sh" = Except.error e) →
       Bash.getShell p = Except.error "Could not find bash or sh on path.") ∧
    ((∃ e, Bash.getShell p = Except.error e) ↔
       ((∃ e, p.lookPath "bash" = Except.error e) ∧ (∃ e, p.lookPath "sh" = Except.error e))) ∧
    (∀ e, Bash.getShell p = Except.error e → Bash.Run p line env b = invocationFailure e) ∧
    (∀ sh, Bash.getShell p = Except.ok sh →
       Bash.Run p line env b = execRunner { name := sh, args := ["-c", line] } env b) := by
  refine ⟨?_, ?_, ?_, ?_, ?_, ?_⟩
  · intro ⟨pth, h⟩
    unfold Bash.getShell
    rw [h]
  · intro ⟨e, hb⟩ ⟨pth, hs⟩
    unfold Bash.getShell
    rw [hb, hs]
  · intro ⟨e, hb⟩ ⟨f, hs⟩
    unfold Bash.getShell
    rw [hb, hs]
  · unfold Bash.getShell
    cases hb : p.lookPath "bash" with
    | error e =>
      cases hs : p.lookPath "sh" with
      | error f => simp
      | ok pth => simp
    | ok pth => simp
  · intro e h
    unfold Bash.Run
    rw [h]
  · intro sh h
    unfold Bash.Run
    rw [h]

/-- Witness for C7 at a platform with bash present, one with only sh,
and one with neither. -/
theorem bash_strategy_contract_witness :
    Bash.getShell platOk = Except.ok "bash" ∧
    Bash.getShell platOnlySh = Except.ok "sh" ∧
    Bash.getShell platFail = Except.error "Could not find bash or sh on path." ∧
    Bash.Run platFail "echo hi" envOk false =
      invocationFailure "Could not find bash or sh on path." ∧
    Bash.Run platOk "echo hi" envOk false =
      execRunner { name := "bash", args := ["-c", "echo hi"] } envOk false := by
  refine ⟨?_, ?_, ?_, ?_, ?_⟩
  · exact (bash_strategy_contract platOk "" envOk false).1 ⟨"/usr/bin/bash", rfl⟩
  · exact (bash_strategy_contract platOnlySh "" envOk false).2.1
      ⟨"executable file not found on PATH", rfl⟩ ⟨"/bin/sh", rfl⟩
  · exact (bash_strategy_contract platFail "" envOk false).2.2.1
      ⟨"executable file not found on PATH", rfl⟩ ⟨"executable file not found on PATH", rfl⟩
  · exact (bash_strategy_contract platFail "echo hi" envOk false).2.2.2.2.1 _
      ((bash_strategy_contract platFail "" envOk false).2.2.1
        ⟨"executable file not found on PATH", rfl⟩ ⟨"executable file not found on PATH", rfl⟩)
  · exact (bash_strategy_contract platOk "echo hi" envOk false).2.2.2.2.2 "bash"
      ((bash_strategy_contract platOk "" envOk false).1 ⟨"/usr/bin/bash", rfl⟩)

/-- C8: the Self-Reinvoke strategy's own resolution step fails exactly
when the running binary's path cannot be determined — that error is
returned as the invocation error and no process spec is built —
and otherwise it hands the runner that binary re-invoked with the fixed
--exec flag followed by the raw line as one single argument. -/
theorem builtin_strategy_contract (p : Platform) (line : String) (env : RunEnv) (b : Bool) :
    (∀ e, p.osExecutable = Except.error e → Builtin.Run p line env b = invocationFailure e) ∧
    (∀ path, p.osExecutable = Except.ok path →
       Builtin.Run p line env b = execRunner { name := path, args := ["--exec", line] } env b) ∧
    ((Builtin.Run p line env b).cmd = none ↔ (∃ e, p.osExecutable = Except.error e)) := by
  refine ⟨?_, ?_, ?_⟩
  · intro e h
    unfold Builtin.Run
    rw [h]
  · intro path h
    unfold Builtin.Run
    rw [h]
  · unfold Builtin.Run
    cases ho : p.osExecutable with
    | error e => simp [invocationFailure]
    | ok path => simp [execRunner_cmd]

/-- Witness for C8 at a platform that cannot determine its own path and
at one that can. -/
theorem builtin_strategy_contract_witness :
    Builtin.Run platFail "go test" envOk false =
      invocationFailure "cannot determine executable path" ∧
    Builtin.Run platOk "go test" envOk false =
      execRunner { name := "/usr/bin/modd", args := ["--exec", "go test"] } envOk false := by
  constructor
  · exact (builtin_strategy_contract platFail "go test" envOk false).1 _ rfl
  · exact (builtin_strategy_contract platOk "go test" envOk false).2.1 _ rfl

/-- C9: registering an executor whose name is already present in the
registry panics with the "already exists" message (modelled as the error
of `register`, the only aborting operation in the model — every other
operation returns its result as a value), and registering a fresh name
inserts it without panicking. -/
theorem register_duplicate_is_fatal (shells : Registry) (i : ExecutorKind) :
    ((lookupName shells i.name).isSome →
       register shells i = Except.error ("shell interface " ++ i.name ++ " already exists")) ∧
    (lookupName shells i.name = none →
       register shells i = Except.ok (shells ++ [(i.name, i)])) := by
  constructor
  · intro h
    unfold register
    rw [if_pos h]
  · intro h
    unfold register
    rw [if_neg (by simp [h])]

/-- Witness for C9: re-registering bash into the initial registry
panics; registering exec into the empty registry inserts it. -/
theorem register_duplicate_is_fatal_witness :
    register initRegistry ExecutorKind.bash =
      Except.error ("shell interface " ++ "bash" ++ " already exists") ∧
    register [] ExecutorKind.exec = Except.ok [("exec", ExecutorKind.exec)] := by
  constructor
  · exact (register_duplicate_is_fatal initRegistry ExecutorKind.bash).1 rfl
  · exact (register_duplicate_is_fatal [] ExecutorKind.exec).2 rfl

/-- C10: the fixed startup registrations succeed and produce exactly the
three entries exec, bash and builtin; GetExecutor returns the executor
whose name equals each of those three queried names, and returns nil for
every other string. -/
theorem registry_contents_after_init (m : String)
    (h1 : m ≠ "exec") (h2 : m ≠ "bash") (h3 : m ≠ "builtin") :
    initShells = Except.ok initRegistry ∧
    (∀ k : ExecutorKind, GetExecutor initRegistry k.name = some k) ∧
    GetExecutor initRegistry m = none := by
  refine ⟨rfl, ?_, ?_⟩
  · intro k
    cases k <;> rfl
  · unfold GetExecutor initRegistry
    simp [lookupName, Ne.symm h1, Ne.symm h2, Ne.symm h3]

/-- Witness for C10 at the query string zsh. -/
theorem registry_contents_after_init_witness :
    initShells = Except.ok initRegistry ∧
    GetExecutor initRegistry "bash" = some ExecutorKind.bash ∧
    GetExecutor initRegistry "zsh" = none := by
  obtain ⟨hi, hk, hn⟩ :=
    registry_contents_after_init "zsh" (by decide) (by decide) (by decide)
  exact ⟨hi, hk ExecutorKind.bash, hn⟩


/-- C3 counterexample: the pump does bound line length — the stream
holding one complete 4097-byte line is forwarded as two emit calls (a
4096-byte piece and a 1-byte piece), not as one single emit call of the
whole line. -/
theorem pump_splits_long_line :
    logOutputLines longLineStream = [List.replicate 4096 97, [97]] ∧
    logOutputLines longLineStream ≠ [List.replicate 4097 97] := by
  have hne : longLineStream ≠ [] := by
    unfold longLineStream
    rw [List.replicate_succ, List.cons_append]
    exact List.cons_ne_nil _ _
  have hlen : longLineStream.length = 4097 + 1 := by
    unfold longLineStream
    rw [List.length_append, List.length_replicate, List.length_cons, List.length_nil]
  have htake : longLineStream.take 4096 = List.replicate 4096 97 := by
    unfold longLineStream
    rw [List.take_append_of_le_length (by rw [List.length_replicate]; omega),
      List.take_replicate, inf_eq_left.mpr (by omega)]
  have hfind : findNl (longLineStream.take 4096) = none := by
    rw [htake]
    exact findNl_replicate_ne 4096 97 (by omega)
  have hlenle : ¬ longLineStream.length ≤ 4096 := by
    rw [hlen]
    omega
  have hlast : (List.replicate 4096 (97 : Byte)).getLast? = some 97 :=
    getLast?_replicate_succ 4095 97
  have hlast13 : ¬ ((longLineStream.take 4096).getLast? = some 13) := by
    rw [htake, hlast]
    simp
  have hdrop : longLineStream.drop 4096 = [97, 10] := by
    unfold longLineStream
    rw [List.drop_append_of_le_length (by rw [List.length_replicate]; omega),
      List.drop_replicate]
    simp
  have hstep1 : readLineGo 4096 longLineStream = some (List.replicate 4096 97, [97, 10]) := by
    unfold readLineGo
    rw [if_neg hne, hfind]
    dsimp only
    rw [if_neg hlenle, if_neg hlast13, htake, hdrop]
  have hstep2 : readLineGo 4096 [97, 10] = some ([97], []) := by rfl
  have hmain : logOutputLines longLineStream = [List.replicate 4096 97, [97]] := by
    unfold logOutputLines bufSize
    rw [pumpGo_succ 4096 longLineStream.length longLineStream _ _ hstep1, hlen,
      pumpGo_succ 4096 4097 [97, 10] _ _ hstep2, pumpGo_nil]
  refine ⟨hmain, ?_⟩
  rw [hmain]
  intro hcontra
  have htl := congrArg List.tail hcontra
  simp only [List.tail_cons] at htl
  exact List.cons_ne_nil _ _ htl

/-- C3 as amended: when every newline-free run of the stream is shorter
than the 4096-byte reader buffer (every 4096-byte window of every suffix
holds a newline), the pump forwards each complete line to emit exactly
once, verbatim and in source order — it computes exactly the spec's
ideal line splitting; the counterexample shows the claim's "no upper
bound on line length" clause fails for longer lines. -/
theorem pump_forwards_short_lines (s : List Byte)
    (H : ∀ i, bufSize ≤ (s.drop i).length → (10 : Nat) ∈ (s.drop i).take bufSize) :
    logOutputLines s = splitLinesSpec s :=
  pumpGo_eq_splitGo bufSize (s.length + 1) s (Nat.lt_succ_self _) H

/-- Witness for C3's amended theorem at the two-line stream 104 10 105. -/
theorem pump_forwards_short_lines_witness :
    logOutputLines [104, 10, 105] = splitLinesSpec [104, 10, 105] ∧
    splitLinesSpec [104, 10, 105] = [[104], [105]] := by
  constructor
  · exact pump_forwards_short_lines [104, 10, 105] (by
      intro i hi
      rw [List.length_drop] at hi
      simp [bufSize] at hi
      omega)
  · rfl


end ModdShell
